import Mathlib

set_option linter.unusedVariables false
set_option linter.unnecessarySimpa false

/-!
Shallow embedding of `scripts/visualize.py` (Tufte-style weather chart).

The script has two components:
* `load_data year` — reads three comma-separated files (temperature,
  precipitation, humidity), pivots the temperature rows into TMAX/TMIN
  columns, derives four monthly mappings, and falls back to a fully
  synthetic year of data when anything in the primary load raises.
* `create_tufte_visualization year` — renders four panels and converts
  any exception into a `False` return; the `__main__` block exits 1 when
  rendering fails or an exception escapes.

Modelling conventions:
* Python floats are modelled by `ℝ`; exact rational/real arithmetic
  stands in for IEEE arithmetic.
* A file on disk is `FileState`: absent, unparsable (read_csv or
  to_datetime raising), or a list of already-typed rows (the result of a
  successful read_csv+to_datetime).
* Randomness (np.random) is an oracle `Rand` of value streams; the draws
  themselves are the stream values.
* pandas pivot sorts its index; we keep first-occurrence order instead.
  No claim depends on row order (only on lengths, membership, and
  groupby aggregates, which are order-insensitive here).
* `mdates.date2num` is an affine day count; `np.interp` is invariant
  under translating all x values, so anchors and query points are taken
  as 0-based day offsets from Jan 1 of the year.
-/

namespace TufteWeather

/-! ## Calendar model (pandas Timestamp / date_range semantics) -/

def isLeap (y : ℕ) : Bool := (y % 4 == 0 && y % 100 != 0) || y % 400 == 0

def monthLengths (y : ℕ) : List ℕ :=
  [31, if isLeap y then 29 else 28, 31, 30, 31, 30, 31, 31, 30, 31, 30, 31]

def daysInYear (y : ℕ) : ℕ := if isLeap y then 366 else 365

/-- Calendar date (pandas Timestamp with day resolution). -/
structure MDate where
  year : ℕ
  month : ℕ
  day : ℕ
deriving DecidableEq, BEq, Repr

/-- Days of month `m` (1-based) of year `y`, in calendar order. -/
def monthDates (y m : ℕ) : List MDate :=
  (List.range ((monthLengths y).getD (m - 1) 0)).map (fun d => ⟨y, m, d + 1⟩)

/-- All days of year `y` in order: `pd.date_range(Jan 1, Dec 31, freq='D')`. -/
def calendarDates (y : ℕ) : List MDate :=
  monthDates y 1 ++ monthDates y 2 ++ monthDates y 3 ++ monthDates y 4 ++
  monthDates y 5 ++ monthDates y 6 ++ monthDates y 7 ++ monthDates y 8 ++
  monthDates y 9 ++ monthDates y 10 ++ monthDates y 11 ++ monthDates y 12

/-- Number of days of year `y` strictly before month `m+1` (0-based `m`);
this is also the 0-based day offset of the first day of month `m+1`. -/
def monthStartOffset (y m : ℕ) : ℕ := ((monthLengths y).take m).sum

/-- pandas `Timestamp.dayofyear` (1-based). -/
def doyOfDate (d : MDate) : ℕ := monthStartOffset d.year (d.month - 1) + d.day

/-! ## Raw file rows and filesystem state -/

/-- One parsed row of `temperatures_<year>.txt`: `date,temp,type`. -/
structure TempRow where
  date : MDate
  temp : ℝ
  kind : String

/-- One parsed row of `precipitation_<year>.txt`: `date,amount`. -/
structure PrecipRow where
  date : MDate
  precip : ℝ

/-- One parsed row of `humidity_<year>.txt`: `date,percent`. -/
structure HumRow where
  date : MDate
  humidity : ℝ

/-- State of one input file: missing, raising on read/parse, or parsed rows. -/
inductive FileState (α : Type) where
  | absent : FileState α
  | unparsable : FileState α
  | content : List α → FileState α

/-- The filesystem as seen by `load_data` for a fixed year. -/
structure FS where
  temp : FileState TempRow
  precip : FileState PrecipRow
  humidity : FileState HumRow

/-- Oracle for np.random: integer draws for randint, the two normal-noise
streams and the exponential stream used by the synthetic fallback. -/
structure Rand where
  ints : ℕ → ℕ
  tnoise : ℕ → ℝ
  pexp : ℕ → ℝ
  hnoise : ℕ → ℝ

/-- `np.random.randint(lo, hi)` yields an integer in `[lo, hi)`. -/
def randint (lo hi : ℕ) (g : ℕ → ℕ) (i : ℕ) : ℕ := lo + g i % (hi - lo)

/-! ## Temperature pivot (pandas `pivot(index=date, columns=type, values=temp)`) -/

/-- Keep the first occurrence of each date (`seen` accumulates). -/
def dedupAux (seen : List MDate) : List MDate → List MDate
  | [] => []
  | d :: rest =>
    if seen.contains d then dedupAux seen rest
    else d :: dedupAux (d :: seen) rest

/-- Row of the pivoted temperature table; `none` models a NaN cell (no row
of that type for that date). -/
structure PivotRow where
  date : MDate
  tmax : Option ℝ
  tmin : Option ℝ

/-- pandas raises on `pivot` iff some `(date, type)` pair repeats. -/
def hasDupKeys : List TempRow → Bool
  | [] => false
  | t :: ts => ts.any (fun u => u.date == t.date && u.kind == t.kind) || hasDupKeys ts

def pivotTemp (l : List TempRow) : List PivotRow :=
  (dedupAux [] (l.map (·.date))).map (fun d =>
    ⟨d, (l.find? (fun r => r.date == d && r.kind == "TMAX")).map (·.temp),
        (l.find? (fun r => r.date == d && r.kind == "TMIN")).map (·.temp)⟩)

/-! ## Monthly groupby aggregates (lines 66-71 and 114-119 of the script) -/

/-- pandas `mean` of a group; empty group means no key in the result. -/
noncomputable def monthlyMeanVals (vals : List ℝ) : Option ℝ :=
  if vals.isEmpty then none else some (vals.sum / vals.length)

noncomputable def monthlyTmaxNormal (t : List PivotRow) (m : ℕ) : Option ℝ :=
  monthlyMeanVals ((t.filter (fun r => r.date.month == m)).filterMap (·.tmax))

noncomputable def monthlyTminNormal (t : List PivotRow) (m : ℕ) : Option ℝ :=
  monthlyMeanVals ((t.filter (fun r => r.date.month == m)).filterMap (·.tmin))

noncomputable def monthlyPrecipMean (p : List PrecipRow) (m : ℕ) : Option ℝ :=
  monthlyMeanVals ((p.filter (fun r => r.date.month == m)).map (·.precip))

/-- `precip_data.groupby(month)['precip'].sum()` as a total mapping. -/
noncomputable def monthlyPrecipActualOf (p : List PrecipRow) (m : ℕ) : Option ℝ :=
  let g := (p.filter (fun r => r.date.month == m)).map (·.precip)
  if g.isEmpty then none else some g.sum

/-- The loader's return value: three daily tables and four monthly mappings. -/
structure Bundle where
  temp : List PivotRow
  precip : List PrecipRow
  humidity : List HumRow
  mTmaxNormal : ℕ → Option ℝ
  mTminNormal : ℕ → Option ℝ
  mPrecipNormal : ℕ → Option ℝ
  mPrecipActual : ℕ → Option ℝ

/-- Both return paths of `load_data` derive the four monthly mappings from
the tables being returned with the same four groupby lines. -/
noncomputable def mkBundle (t : List PivotRow) (p : List PrecipRow) (h : List HumRow) : Bundle :=
  ⟨t, p, h, monthlyTmaxNormal t, monthlyTminNormal t,
    fun m => (monthlyPrecipMean p m).map (fun v => v * 30),
    monthlyPrecipActualOf p⟩

/-! ## Synthetic fallback data (lines 79-121) -/

/-- `List.map` with the element index threaded through (enumerate). -/
def mapWithIdx {α β : Type} (f : ℕ → α → β) : ℕ → List α → List β
  | _, [] => []
  | i, a :: as => f i a :: mapWithIdx f (i + 1) as

/-- Deterministic part of the synthetic TMAX: `75 + 25*sin(2π*doy/365)`. -/
noncomputable def tmaxBase (doy : ℕ) : ℝ := 75 + 25 * Real.sin (2 * Real.pi * doy / 365)

/-- Deterministic part of the synthetic TMIN: `45 + 25*sin(2π*doy/365)`. -/
noncomputable def tminBase (doy : ℕ) : ℝ := 45 + 25 * Real.sin (2 * Real.pi * doy / 365)

noncomputable def synthTemp (y : ℕ) (r : Rand) : List PivotRow :=
  mapWithIdx (fun i d =>
    ⟨d, some (tmaxBase (doyOfDate d) + r.tnoise (2 * i)),
        some (tminBase (doyOfDate d) + r.tnoise (2 * i + 1))⟩) 0 (calendarDates y)

noncomputable def synthPrecip (y : ℕ) (r : Rand) : List PrecipRow :=
  mapWithIdx (fun i d => ⟨d, r.pexp i⟩) 0 (calendarDates y)

noncomputable def clipReal (lo hi x : ℝ) : ℝ := min hi (max lo x)

noncomputable def synthHumidity (y : ℕ) (r : Rand) : List HumRow :=
  mapWithIdx (fun i d =>
    ⟨d, clipReal 10 100 (50 + 20 * Real.sin (2 * Real.pi * i / 365) + r.hnoise i)⟩)
    0 (calendarDates y)

/-- The full synthetic bundle built in the `except` branch of `load_data`. -/
noncomputable def syntheticBundle (y : ℕ) (r : Rand) : Bundle :=
  mkBundle (synthTemp y r) (synthPrecip y r) (synthHumidity y r)

/-! ## The loader -/

inductive LoadErr where
  | tempMissing | tempBad | tempEmpty | pivotDup
  | precipMissing | precipBad | precipEmpty | keyErr

/-- Dummy humidity when the humidity file is absent or raises:
`np.random.randint(30, 80, size=len(temp_pivot))` indexed by the pivot dates. -/
def dummyHumidity (t : List PivotRow) (r : Rand) : List HumRow :=
  mapWithIdx (fun i row => ⟨row.date, ((randint 30 80 r.ints i : ℕ) : ℝ)⟩) 0 t

/-- The body of the outer `try` of `load_data` (lines 18-73): every raise
inside it is an `Except.error`.  The inner humidity `try` is the nested
match: any humidity problem yields dummy data without failing the load. -/
noncomputable def loadDataPrimary (year : ℕ) (fs : FS) (r : Rand) : Except LoadErr Bundle :=
  match fs.temp with
  | .absent => .error .tempMissing
  | .unparsable => .error .tempBad
  | .content [] => .error .tempEmpty
  | .content (t :: ts) =>
    if hasDupKeys (t :: ts) then .error .pivotDup
    else
      let tp := pivotTemp (t :: ts)
      match fs.precip with
      | .absent => .error .precipMissing
      | .unparsable => .error .precipBad
      | .content [] => .error .precipEmpty
      | .content (p :: ps) =>
        let hum : List HumRow :=
          match fs.humidity with
          | .content (h :: hs) => h :: hs
          | _ => dummyHumidity tp r
        if (t :: ts).any (fun u => u.kind == "TMAX") then
          if (t :: ts).any (fun u => u.kind == "TMIN") then
            .ok (mkBundle tp (p :: ps) hum)
          else .error .keyErr
        else .error .keyErr

/-- `load_data`: the primary load with full synthetic fallback on any error. -/
noncomputable def load_data (year : ℕ) (fs : FS) (r : Rand) : Bundle :=
  match loadDataPrimary year fs r with
  | .ok b => b
  | .error _ => syntheticBundle year r

/-! ## Renderer, normal-line interpolation, entry point -/

/-- `np.interp` over points with strictly increasing x coordinates:
clamp to the end values outside the anchor range, linear in between. -/
noncomputable def interpAt : List (ℝ × ℝ) → ℝ → ℝ
  | [], _ => 0
  | [(_, y)], _ => y
  | (x1, y1) :: (x2, y2) :: rest, x =>
    if x < x1 then y1
    else if x ≤ x2 then y1 + (y2 - y1) * (x - x1) / (x2 - x1)
    else interpAt ((x2, y2) :: rest) x

/-- Anchor points of the renderer's normal lines: the value `f (m+1)` for
month `m+1` is placed at the first day of that month
(`pd.date_range(freq='MS')`), as a 0-based day offset. -/
noncomputable def anchorList (y : ℕ) (f : ℕ → ℝ) : List (ℝ × ℝ) :=
  (List.range 12).map (fun m => ((monthStartOffset y m : ℝ), f (m + 1)))

/-- `np.interp(date2num(extended_months), date2num(months), normals)` at the
day with 0-based offset `d` from Jan 1. -/
noncomputable def extendedNormal (y : ℕ) (f : ℕ → ℝ) (d : ℕ) : ℝ :=
  interpAt (anchorList y f) d

inductive RenderErr where
  | keyErr : RenderErr
  | io : String → RenderErr

/-- Environment of one render run: the filesystem the loader sees and the
outcome of the `makedirs`/`savefig` I/O. -/
structure RenderEnv where
  fs : FS
  save : Except String Unit

/-- The body of the renderer's `try` (lines 128-273): loading, the
`monthly_*_normal[m.month]` lookups for the 12 months (a KeyError when a
month is missing), the pure layout arithmetic, then the image write. -/
noncomputable def renderPipeline (year : ℕ) (env : RenderEnv) (r : Rand) : Except RenderErr Unit :=
  let b := load_data year env.fs r
  if (List.range 12).all
      (fun m => (b.mTmaxNormal (m + 1)).isSome && (b.mTminNormal (m + 1)).isSome) then
    let _tmaxLine := (List.range (daysInYear year)).map
      (fun d => extendedNormal year (fun k => (b.mTmaxNormal k).getD 0) d)
    let _tminLine := (List.range (daysInYear year)).map
      (fun d => extendedNormal year (fun k => (b.mTminNormal k).getD 0) d)
    match env.save with
    | .ok _ => .ok ()
    | .error s => .error (.io s)
  else .error .keyErr

/-- `create_tufte_visualization`: any exception becomes `return False`. -/
noncomputable def create_tufte_visualization (year : ℕ) (env : RenderEnv) (r : Rand) : Bool :=
  match renderPipeline year env r with
  | .ok _ => true
  | .error _ => false

/-- The `__main__` block.  `arg = none`: no CLI argument (year 1980);
`arg = some (.error ())`: `int(sys.argv[1])` raised; `arg = some (.ok y)`:
the parsed year.  The result is the process exit code. -/
noncomputable def mainRun (arg : Option (Except Unit ℕ)) (env : RenderEnv) (r : Rand) : ℕ :=
  match arg with
  | none => if create_tufte_visualization 1980 env r then 0 else 1
  | some (.ok y) => if create_tufte_visualization y env r then 0 else 1
  | some (.error _) => 1

/-! ## Decidable descriptions of filesystem states -/

/-- The temperature file loads, pivots, and has both TMAX and TMIN columns. -/
def tempGood (fs : FS) : Bool :=
  match fs.temp with
  | .content (t :: ts) =>
    !hasDupKeys (t :: ts) && (t :: ts).any (fun u => u.kind == "TMAX") &&
      (t :: ts).any (fun u => u.kind == "TMIN")
  | _ => false

def precipGood (fs : FS) : Bool :=
  match fs.precip with
  | .content (_ :: _) => true
  | _ => false

def humidityGood (fs : FS) : Bool :=
  match fs.humidity with
  | .content (_ :: _) => true
  | _ => false

/-- The temperature file parses but contains a duplicate `(date, type)` pair. -/
def tempHasDup (fs : FS) : Bool :=
  match fs.temp with
  | .content l => hasDupKeys l
  | _ => false

def tempRows (fs : FS) : List TempRow :=
  match fs.temp with
  | .content l => l
  | _ => []

def precipRows (fs : FS) : List PrecipRow :=
  match fs.precip with
  | .content l => l
  | _ => []

/-! ## Basic structural lemmas -/

lemma mkBundle_temp (t : List PivotRow) (p : List PrecipRow) (h : List HumRow) :
    (mkBundle t p h).temp = t := rfl

lemma mkBundle_precip (t : List PivotRow) (p : List PrecipRow) (h : List HumRow) :
    (mkBundle t p h).precip = p := rfl

lemma mkBundle_humidity (t : List PivotRow) (p : List PrecipRow) (h : List HumRow) :
    (mkBundle t p h).humidity = h := rfl

lemma mapWithIdx_length {α β : Type} (f : ℕ → α → β) :
    ∀ (n : ℕ) (l : List α), (mapWithIdx f n l).length = l.length := by
  intro n l
  induction l generalizing n with
  | nil => rfl
  | cons a as ih => simp [mapWithIdx, ih]

lemma map_mapWithIdx {α β : Type} (f : ℕ → α → β) (g : β → α)
    (hg : ∀ i a, g (f i a) = a) : ∀ (n : ℕ) (l : List α), (mapWithIdx f n l).map g = l := by
  intro n l
  induction l generalizing n with
  | nil => rfl
  | cons a as ih => simp [mapWithIdx, hg, ih]

lemma pivotTemp_ne_nil (t : TempRow) (ts : List TempRow) : pivotTemp (t :: ts) ≠ [] := by
  simp [pivotTemp, dedupAux]

lemma dummyHumidity_ne_nil (t : List PivotRow) (r : Rand) (ht : t ≠ []) :
    dummyHumidity t r ≠ [] := by
  rcases t with _ | ⟨a, as⟩
  · exact absurd rfl ht
  · simp [dummyHumidity, mapWithIdx]

lemma daysInYear_pos (y : ℕ) : 0 < daysInYear y := by
  cases h : isLeap y <;> simp [daysInYear, h]

lemma calendarDates_length (y : ℕ) : (calendarDates y).length = daysInYear y := by
  cases h : isLeap y <;>
    simp [calendarDates, monthDates, daysInYear, monthLengths, h]

lemma calendarDates_ne_nil (y : ℕ) : calendarDates y ≠ [] := by
  have h := calendarDates_length y
  have hp := daysInYear_pos y
  intro hnil
  rw [hnil] at h
  simp at h
  omega

/-- Every `Except.ok` result of the primary load is `mkBundle` of the pivoted
temperature file, the precipitation file, and a nonempty humidity table. -/
lemma loadDataPrimary_ok_shape (year : ℕ) (fs : FS) (r : Rand) (b : Bundle)
    (h : loadDataPrimary year fs r = .ok b) :
    ∃ t ts p ps hum, fs.temp = .content (t :: ts) ∧ fs.precip = .content (p :: ps) ∧
      hum ≠ [] ∧ b = mkBundle (pivotTemp (t :: ts)) (p :: ps) hum := by
  rcases fs with ⟨tf, pf, hf⟩
  rcases tf with _ | _ | tl
  · exact absurd h (by simp [loadDataPrimary])
  · exact absurd h (by simp [loadDataPrimary])
  rcases tl with _ | ⟨t, ts⟩
  · exact absurd h (by simp [loadDataPrimary])
  dsimp only [loadDataPrimary] at h
  by_cases hd : hasDupKeys (t :: ts)
  · rw [if_pos hd] at h; exact Except.noConfusion h
  rw [if_neg hd] at h
  rcases pf with _ | _ | pl
  · exact Except.noConfusion h
  · exact Except.noConfusion h
  rcases pl with _ | ⟨p, ps⟩
  · exact Except.noConfusion h
  dsimp only at h
  by_cases hmax : (t :: ts).any (fun u => u.kind == "TMAX")
  · rw [if_pos hmax] at h
    by_cases hmin : (t :: ts).any (fun u => u.kind == "TMIN")
    · rw [if_pos hmin] at h
      injection h with h
      refine ⟨t, ts, p, ps, _, rfl, rfl, ?_, h.symm⟩
      rcases hf with _ | _ | ⟨_ | ⟨hh, hs⟩⟩
      · exact dummyHumidity_ne_nil _ r (pivotTemp_ne_nil t ts)
      · exact dummyHumidity_ne_nil _ r (pivotTemp_ne_nil t ts)
      · exact dummyHumidity_ne_nil _ r (pivotTemp_ne_nil t ts)
      · simp
    · rw [if_neg hmin] at h; exact Except.noConfusion h
  · rw [if_neg hmax] at h; exact Except.noConfusion h

/-- `load_data` always returns a bundle of the `mkBundle` form. -/
lemma load_data_shape (year : ℕ) (fs : FS) (r : Rand) :
    ∃ t p hum, load_data year fs r = mkBundle t p hum := by
  cases hE : loadDataPrimary year fs r with
  | ok b =>
    obtain ⟨t, ts, p, ps, hum, _, _, _, hb⟩ := loadDataPrimary_ok_shape year fs r b hE
    refine ⟨pivotTemp (t :: ts), p :: ps, hum, ?_⟩
    simp [load_data, hE, hb]
  | error e =>
    refine ⟨synthTemp year r, synthPrecip year r, synthHumidity year r, ?_⟩
    simp [load_data, hE, syntheticBundle]

/-! ## The claims -/

/-- C1: `load_data` never propagates an exception: for every filesystem state
it either returns the successfully loaded bundle or, whenever the primary
load errors, the full synthetic bundle — and in all cases the returned
bundle is complete, with nonempty temperature, precipitation and humidity
tables (the four monthly mappings are total functions of the bundle). -/
theorem load_data_never_fails (year : ℕ) (fs : FS) (r : Rand) :
    ((∃ b, loadDataPrimary year fs r = .ok b ∧ load_data year fs r = b) ∨
      ((∃ e, loadDataPrimary year fs r = .error e) ∧
        load_data year fs r = syntheticBundle year r)) ∧
    (load_data year fs r).temp ≠ [] ∧ (load_data year fs r).precip ≠ [] ∧
      (load_data year fs r).humidity ≠ [] := by
  cases hE : loadDataPrimary year fs r with
  | ok b =>
    obtain ⟨t, ts, p, ps, hum, _, _, hne, hb⟩ := loadDataPrimary_ok_shape year fs r b hE
    have hld : load_data year fs r = b := by simp [load_data, hE]
    refine ⟨.inl ⟨b, rfl, hld⟩, ?_, ?_, ?_⟩ <;> rw [hld, hb]
    · exact pivotTemp_ne_nil t ts
    · simp [mkBundle]
    · simpa [mkBundle] using hne
  | error e =>
    have hld : load_data year fs r = syntheticBundle year r := by simp [load_data, hE]
    have hcal := calendarDates_ne_nil year
    have hlen : ∀ (l : List MDate), l ≠ [] → ∀ {β : Type} (f : ℕ → MDate → β),
        mapWithIdx f 0 l ≠ [] := by
      intro l hl β f hc
      have := mapWithIdx_length f 0 l
      rw [hc] at this
      exact hl (List.length_eq_zero.mp this.symm)
    refine ⟨.inr ⟨⟨e, rfl⟩, hld⟩, ?_, ?_, ?_⟩ <;>
      rw [hld] <;> simp only [syntheticBundle, mkBundle]
    · exact hlen _ hcal _
    · exact hlen _ hcal _
    · exact hlen _ hcal _

/-- C6: on every return path, the bundle's monthly actual-precipitation
mapping at month `m` is exactly the sum of the daily `precip` values of the
rows of the returned precipitation table whose date lies in month `m`
(and it has no entry for a month with no rows). -/
theorem monthly_actual_is_sum_of_table (year : ℕ) (fs : FS) (r : Rand) (m : ℕ) :
    (load_data year fs r).mPrecipActual m =
      (if (((load_data year fs r).precip.filter
              (fun row => row.date.month == m)).map (·.precip)).isEmpty
       then none
       else some ((((load_data year fs r).precip.filter
              (fun row => row.date.month == m)).map (·.precip)).sum)) := by
  obtain ⟨t, p, hum, hb⟩ := load_data_shape year fs r
  rw [hb]
  rfl

/-- C7: on every return path, the bundle's monthly normal-precipitation
mapping at month `m` is the mean of that month's daily values in the
returned precipitation table multiplied by the constant 30 — not by that
month's actual day count. -/
theorem monthly_normal_is_mean_times_30 (year : ℕ) (fs : FS) (r : Rand) (m : ℕ) :
    (load_data year fs r).mPrecipNormal m =
      (if (((load_data year fs r).precip.filter
              (fun row => row.date.month == m)).map (·.precip)).isEmpty
       then none
       else some (((((load_data year fs r).precip.filter
              (fun row => row.date.month == m)).map (·.precip)).sum /
            ((((load_data year fs r).precip.filter
              (fun row => row.date.month == m)).map (·.precip)).length : ℝ)) * 30)) := by
  obtain ⟨t, p, hum, hb⟩ := load_data_shape year fs r
  rw [hb]
  show (monthlyPrecipMean p m).map (fun v => v * 30) = _
  rw [monthlyPrecipMean, monthlyMeanVals]
  by_cases hc : ((p.filter (fun row => row.date.month == m)).map (·.precip)).isEmpty
  · simp [mkBundle, hc]
  · simp [mkBundle, hc]

/-- C9: when all three files exist and parse (temperature pivots with both
columns, precipitation nonempty, humidity nonempty), `load_data` consumes
no randomness: its result is the same for any two random oracles. -/
theorem load_data_deterministic (year : ℕ) (fs : FS) (r₁ r₂ : Rand)
    (h1 : tempGood fs = true) (h2 : precipGood fs = true)
    (h3 : humidityGood fs = true) :
    load_data year fs r₁ = load_data year fs r₂ := by
  rcases fs with ⟨tf, pf, hf⟩
  rcases tf with _ | _ | ⟨_ | ⟨t, ts⟩⟩ <;> simp [tempGood] at h1
  rcases pf with _ | _ | ⟨_ | ⟨p, ps⟩⟩ <;> simp [precipGood] at h2
  rcases hf with _ | _ | ⟨_ | ⟨hh, hs⟩⟩ <;> simp [humidityGood] at h3
  obtain ⟨⟨hnd, hmax⟩, hmin⟩ := h1
  simp [load_data, loadDataPrimary, hnd, hmax, hmin]

/-- C10: a duplicate `(date, kind)` pair in the temperature file makes the
pivot raise, and the loader then discards everything read from files —
whatever the precipitation and humidity files contain — and returns the
fully synthetic bundle. -/
theorem dup_pivot_discards_files (year : ℕ) (fs : FS) (r : Rand)
    (h : tempHasDup fs = true) :
    load_data year fs r = syntheticBundle year r := by
  rcases fs with ⟨tf, pf, hf⟩
  rcases tf with _ | _ | ⟨_ | ⟨t, ts⟩⟩ <;> simp [tempHasDup, hasDupKeys] at h
  have hd : hasDupKeys (t :: ts) = true := by
    simp [hasDupKeys]
    tauto
  simp [load_data, loadDataPrimary, hd]

/-! ## Concrete inputs used by witnesses and counterexamples -/

def d0 : MDate := ⟨2023, 1, 1⟩

noncomputable def rand0 : Rand := ⟨fun _ => 0, fun _ => 0, fun _ => 0, fun _ => 0⟩

noncomputable def rand1 : Rand :=
  ⟨fun n => n + 7, fun n => (n : ℝ) + 1, fun n => (n : ℝ) + 2, fun n => (n : ℝ) + 3⟩

/-- One day of well-formed data in all three files. -/
noncomputable def fsC9 : FS :=
  ⟨.content [⟨d0, 50, "TMAX"⟩, ⟨d0, 30, "TMIN"⟩],
   .content [⟨d0, 1⟩], .content [⟨d0, 40⟩]⟩

/-- A duplicate `(date, TMAX)` pair in the temperature file next to a valid
precipitation file. -/
noncomputable def fsDup : FS :=
  ⟨.content [⟨d0, 50, "TMAX"⟩, ⟨d0, 55, "TMAX"⟩, ⟨d0, 30, "TMIN"⟩],
   .content [⟨d0, 1⟩], .absent⟩

/-- Well-formed but partial files: a single calendar day in each. -/
noncomputable def fsC2 : FS :=
  ⟨.content [⟨d0, 50, "TMAX"⟩, ⟨d0, 30, "TMIN"⟩],
   .content [⟨d0, 1⟩], .content [⟨d0, 40⟩]⟩

/-- Good temperature and precipitation files, humidity file missing. -/
noncomputable def fsC3 : FS :=
  ⟨.content [⟨d0, 50, "TMAX"⟩, ⟨d0, 30, "TMIN"⟩],
   .content [⟨d0, 1⟩], .absent⟩

theorem load_data_deterministic_witness :
    load_data 2023 fsC9 rand0 = load_data 2023 fsC9 rand1 :=
  load_data_deterministic 2023 fsC9 rand0 rand1 (by decide) (by decide) (by decide)

theorem dup_pivot_discards_files_witness :
    precipGood fsDup = true ∧ load_data 2023 fsDup rand0 = syntheticBundle 2023 rand0 :=
  ⟨by decide, dup_pivot_discards_files 2023 fsDup rand0 (by decide)⟩

/-- C2 counterexample: with well-formed one-day temperature and
precipitation files the primary load succeeds and the returned tables have
a single row, not the 365 calendar days of 2023 — the primary path does
not densify to the full year. -/
theorem primary_not_dense_counterexample :
    (loadDataPrimary 2023 fsC2 rand0).isOk = true ∧
    (load_data 2023 fsC2 rand0).temp.length = 1 ∧
    (load_data 2023 fsC2 rand0).precip.length = 1 ∧
    daysInYear 2023 = 365 ∧ (1 : ℕ) ≠ 365 := by
  refine ⟨rfl, rfl, rfl, rfl, by decide⟩

/-- C2 amended: the synthetic fallback tables span exactly the calendar
days of the year (365 rows, 366 in a leap year); on the primary path the
tables contain exactly the rows read from the files, which need not cover
the year. -/
lemma synthTemp_dates (y : ℕ) (r : Rand) :
    (synthTemp y r).map (fun row => row.date) = calendarDates y := by
  unfold synthTemp
  exact map_mapWithIdx _ _ (fun i a => rfl) 0 _

lemma synthPrecip_dates (y : ℕ) (r : Rand) :
    (synthPrecip y r).map (fun row => row.date) = calendarDates y := by
  unfold synthPrecip
  exact map_mapWithIdx _ _ (fun i a => rfl) 0 _

theorem synthetic_tables_span_calendar_year (year : ℕ) (r : Rand) :
    (syntheticBundle year r).temp.map (fun row => row.date) = calendarDates year ∧
    (syntheticBundle year r).precip.map (fun row => row.date) = calendarDates year ∧
    (calendarDates year).length = daysInYear year ∧
    daysInYear year = (if isLeap year then 366 else 365) := by
  refine ⟨?_, ?_, calendarDates_length year, rfl⟩
  · simp only [syntheticBundle, mkBundle_temp]
    exact synthTemp_dates year r
  · simp only [syntheticBundle, mkBundle_precip]
    exact synthPrecip_dates year r

/-! ## C3: humidity-only fallback -/

lemma mem_mapWithIdx {α β : Type} (f : ℕ → α → β) :
    ∀ (n : ℕ) (l : List α) (b : β), b ∈ mapWithIdx f n l → ∃ i a, b = f i a := by
  intro n l
  induction l generalizing n with
  | nil => intro b h; simp [mapWithIdx] at h
  | cons a as ih =>
    intro b h
    rcases (by simpa [mapWithIdx] using h : b = f n a ∨ b ∈ mapWithIdx f (n + 1) as) with h1 | h2
    · exact ⟨n, a, h1⟩
    · exact ih _ _ h2

lemma dummyHumidity_bounds (t : List PivotRow) (r : Rand) :
    ∀ row ∈ dummyHumidity t r, (30 : ℝ) ≤ row.humidity ∧ row.humidity ≤ 80 := by
  intro row hrow
  obtain ⟨i, a, hrw⟩ := mem_mapWithIdx _ 0 t row hrow
  subst hrw
  have hmod : r.ints i % 50 ≤ 49 := Nat.le_of_lt_succ (Nat.mod_lt _ (by norm_num))
  constructor
  · show (30 : ℝ) ≤ ((randint 30 80 r.ints i : ℕ) : ℝ)
    have : (30 : ℕ) ≤ randint 30 80 r.ints i := Nat.le_add_right _ _
    exact_mod_cast this
  · show ((randint 30 80 r.ints i : ℕ) : ℝ) ≤ 80
    have : randint 30 80 r.ints i ≤ 80 := by
      unfold randint
      omega
    exact_mod_cast this

/-- C3: when the temperature and precipitation files load and pivot
correctly but the humidity file is missing, empty, or unparsable, the
returned temperature and precipitation tables are exactly the ones built
from the files — untouched by the fallback — while every humidity value is
a uniform random integer within [30, 80]. -/
theorem humidity_fallback_preserves_tables (year : ℕ) (fs : FS) (r : Rand)
    (h1 : tempGood fs = true) (h2 : precipGood fs = true)
    (h3 : humidityGood fs = false) :
    (load_data year fs r).temp = pivotTemp (tempRows fs) ∧
    (load_data year fs r).precip = precipRows fs ∧
    ∀ row ∈ (load_data year fs r).humidity,
      (30 : ℝ) ≤ row.humidity ∧ row.humidity ≤ 80 := by
  rcases fs with ⟨tf, pf, hf⟩
  rcases tf with _ | _ | tl
  · exact absurd h1 (by simp [tempGood])
  · exact absurd h1 (by simp [tempGood])
  rcases tl with _ | ⟨t, ts⟩
  · exact absurd h1 (by simp [tempGood])
  simp only [tempGood, Bool.and_eq_true, Bool.not_eq_true'] at h1
  rcases pf with _ | _ | ⟨_ | ⟨p, ps⟩⟩ <;> simp [precipGood] at h2
  obtain ⟨⟨hnd, hmax⟩, hmin⟩ := h1
  have hload : load_data year ⟨.content (t :: ts), .content (p :: ps), hf⟩ r =
      mkBundle (pivotTemp (t :: ts)) (p :: ps)
        (dummyHumidity (pivotTemp (t :: ts)) r) := by
    rcases hf with _ | _ | hl
    · simp [load_data, loadDataPrimary, hnd, hmax, hmin]
    · simp [load_data, loadDataPrimary, hnd, hmax, hmin]
    · rcases hl with _ | ⟨hh, hs⟩
      · simp [load_data, loadDataPrimary, hnd, hmax, hmin]
      · exact absurd h3 (by simp [humidityGood])
  rw [hload]
  exact ⟨rfl, rfl, dummyHumidity_bounds _ r⟩

theorem humidity_fallback_preserves_tables_witness :
    (load_data 2023 fsC3 rand1).temp = pivotTemp (tempRows fsC3) ∧
    (load_data 2023 fsC3 rand1).precip = precipRows fsC3 ∧
    ∀ row ∈ (load_data 2023 fsC3 rand1).humidity,
      (30 : ℝ) ≤ row.humidity ∧ row.humidity ≤ 80 :=
  humidity_fallback_preserves_tables 2023 fsC3 rand1 (by decide) (by decide) (by decide)

/-! ## C4: phase of the synthetic seasonal sinusoid -/

lemma sin_neg_of_pi_lt (x : ℝ) (h1 : Real.pi < x) (h2 : x < 2 * Real.pi) :
    Real.sin x < 0 := by
  have h3 : 0 < Real.sin (x - Real.pi) :=
    Real.sin_pos_of_pos_of_lt_pi (by linarith) (by linarith)
  have h4 : Real.sin (x - Real.pi) = -Real.sin x := Real.sin_sub_pi x
  linarith

/-- C4 fails on the code: `sin(2π·doy/365)` peaks near April 1 and is
negative for the whole second half of the year, so the deterministic TMAX
base on July 15 (day-of-year 196) is strictly below the one on
January 15 (day-of-year 15) — synthetic summer is colder than winter. -/
theorem synthetic_july_colder_than_january :
    tmaxBase 196 < tmaxBase 15 ∧
    doyOfDate ⟨2023, 7, 15⟩ = 196 ∧ doyOfDate ⟨2023, 1, 15⟩ = 15 := by
  refine ⟨?_, by decide, by decide⟩
  unfold tmaxBase
  have hc1 : ((196 : ℕ) : ℝ) = 196 := by norm_num
  have hc2 : ((15 : ℕ) : ℝ) = 15 := by norm_num
  rw [hc1, hc2]
  have hpi := Real.pi_pos
  have hs15 : 0 < Real.sin (2 * Real.pi * 15 / 365) :=
    Real.sin_pos_of_pos_of_lt_pi (by linarith) (by linarith)
  have hs196 : Real.sin (2 * Real.pi * 196 / 365) < 0 :=
    sin_neg_of_pi_lt _ (by linarith) (by linarith)
  linarith

/-! ## C5: renderer failure-as-value and process exit codes -/

/-- C5: the renderer's `try` converts any pipeline error into `False` and a
success into `True`, and the entry point exits 0 exactly when the renderer
returns `True`: 1 when it returns `False`, and 1 when `int(sys.argv[1])`
raises (the year defaults to 1980 when no argument is given). -/
theorem renderer_reports_failure_as_value (year : ℕ) (env : RenderEnv) (r : Rand)
    (arg : Option (Except Unit ℕ)) (e : RenderErr) :
    (renderPipeline year env r = .error e → create_tufte_visualization year env r = false) ∧
    (renderPipeline year env r = .ok () → create_tufte_visualization year env r = true) ∧
    (arg = none →
      mainRun arg env r = (if create_tufte_visualization 1980 env r then 0 else 1)) ∧
    (∀ y, arg = some (.ok y) →
      mainRun arg env r = (if create_tufte_visualization y env r then 0 else 1)) ∧
    (arg = some (.error ()) → mainRun arg env r = 1) := by
  refine ⟨?_, ?_, ?_, ?_, ?_⟩
  · intro h
    simp [create_tufte_visualization, h]
  · intro h
    simp [create_tufte_visualization, h]
  · intro h
    subst h
    rfl
  · intro y h
    subst h
    rfl
  · intro h
    subst h
    rfl

/-- One well-formed day per file: the renderer's month lookups then fail
for February, so the pipeline errors without any I/O error. -/
noncomputable def envKeyErr : RenderEnv :=
  ⟨⟨.content [⟨d0, 50, "TMAX"⟩, ⟨d0, 30, "TMIN"⟩],
    .content [⟨d0, 1⟩], .content [⟨d0, 40⟩]⟩, .ok ()⟩

/-- One TMAX/TMIN pair for the first of every month of 2023, so all twelve
monthly normals exist and the pipeline succeeds. -/
noncomputable def envOk : RenderEnv :=
  ⟨⟨.content [
      ⟨⟨2023, 1, 1⟩, 50, "TMAX"⟩, ⟨⟨2023, 1, 1⟩, 30, "TMIN"⟩,
      ⟨⟨2023, 2, 1⟩, 50, "TMAX"⟩, ⟨⟨2023, 2, 1⟩, 30, "TMIN"⟩,
      ⟨⟨2023, 3, 1⟩, 50, "TMAX"⟩, ⟨⟨2023, 3, 1⟩, 30, "TMIN"⟩,
      ⟨⟨2023, 4, 1⟩, 50, "TMAX"⟩, ⟨⟨2023, 4, 1⟩, 30, "TMIN"⟩,
      ⟨⟨2023, 5, 1⟩, 50, "TMAX"⟩, ⟨⟨2023, 5, 1⟩, 30, "TMIN"⟩,
      ⟨⟨2023, 6, 1⟩, 50, "TMAX"⟩, ⟨⟨2023, 6, 1⟩, 30, "TMIN"⟩,
      ⟨⟨2023, 7, 1⟩, 50, "TMAX"⟩, ⟨⟨2023, 7, 1⟩, 30, "TMIN"⟩,
      ⟨⟨2023, 8, 1⟩, 50, "TMAX"⟩, ⟨⟨2023, 8, 1⟩, 30, "TMIN"⟩,
      ⟨⟨2023, 9, 1⟩, 50, "TMAX"⟩, ⟨⟨2023, 9, 1⟩, 30, "TMIN"⟩,
      ⟨⟨2023, 10, 1⟩, 50, "TMAX"⟩, ⟨⟨2023, 10, 1⟩, 30, "TMIN"⟩,
      ⟨⟨2023, 11, 1⟩, 50, "TMAX"⟩, ⟨⟨2023, 11, 1⟩, 30, "TMIN"⟩,
      ⟨⟨2023, 12, 1⟩, 50, "TMAX"⟩, ⟨⟨2023, 12, 1⟩, 30, "TMIN"⟩],
    .content [⟨d0, 1⟩], .content [⟨d0, 40⟩]⟩, .ok ()⟩

theorem renderer_reports_failure_as_value_witness :
    (create_tufte_visualization 1980 envKeyErr rand0 = false ∧
      mainRun (some (.error ())) envKeyErr rand0 = 1) ∧
    create_tufte_visualization 2023 envOk rand0 = true := by
  have h1 := renderer_reports_failure_as_value 1980 envKeyErr rand0
    (some (.error ())) RenderErr.keyErr
  have h2 := renderer_reports_failure_as_value 2023 envOk rand0 none RenderErr.keyErr
  exact ⟨⟨h1.1 rfl, h1.2.2.2.2 rfl⟩, h2.2.1 rfl⟩

/-! ## C8: the normal overlay lines are piecewise-linear between month starts -/

lemma range'_two (s : ℕ) : List.range' s 2 = [s, s + 1] := rfl

lemma mem_range'_lt (k s n : ℕ) (h : k ∈ List.range' s n) : s ≤ k ∧ k < s + n := by
  obtain ⟨i, hi, rfl⟩ := List.mem_range'.mp h
  omega

lemma interpAt_head_seg (a b ya yb : ℝ) (post : List (ℝ × ℝ)) (x : ℝ)
    (hax : a ≤ x) (hxb : x ≤ b) :
    interpAt ((a, ya) :: (b, yb) :: post) x = ya + (yb - ya) * (x - a) / (b - a) := by
  simp only [interpAt]
  rw [if_neg (not_lt.mpr hax), if_pos hxb]

/-- Value of `np.interp` inside a segment whose left anchors all lie
strictly left of the query point. -/
lemma interpAt_seg (x a b ya yb : ℝ) (post : List (ℝ × ℝ)) :
    ∀ (pre : List (ℝ × ℝ)), (∀ p ∈ pre, p.1 < x) → a ≤ x → x ≤ b → a < b →
      interpAt (pre ++ (a, ya) :: (b, yb) :: post) x =
        ya + (yb - ya) * (x - a) / (b - a) := by
  intro pre
  induction pre with
  | nil =>
    intro _ hax hxb _
    simpa using interpAt_head_seg a b ya yb post x hax hxb
  | cons c tl ih =>
    intro hpre hax hxb hab
    obtain ⟨cx, cy⟩ := c
    have hcx : cx < x := by simpa using hpre (cx, cy) (by simp)
    cases tl with
    | nil =>
      by_cases hxa : x ≤ a
      · have hxeq : x = a := le_antisymm hxa hax
        subst hxeq
        simp only [List.nil_append, List.cons_append, interpAt]
        rw [if_neg (not_lt.mpr hcx.le), if_pos le_rfl]
        have hne : x - cx ≠ 0 := sub_ne_zero.mpr hcx.ne'
        rw [mul_div_assoc, div_self hne, mul_one, sub_self, mul_zero, zero_div, add_zero]
        ring
      · push_neg at hxa
        simp only [List.nil_append, List.cons_append, interpAt]
        rw [if_neg (not_lt.mpr hcx.le), if_neg (not_le.mpr hxa)]
        exact interpAt_head_seg a b ya yb post x hax hxb
    | cons q tl' =>
      obtain ⟨qx, qy⟩ := q
      have hqx : qx < x := by simpa using hpre (qx, qy) (by simp)
      simp only [List.cons_append, interpAt]
      rw [if_neg (not_lt.mpr hcx.le), if_neg (not_le.mpr hqx)]
      exact ih (fun p hp => hpre p (List.mem_cons_of_mem _ hp)) hax hxb hab

/-- Right clamp of `np.interp`: at or beyond the last anchor the last value
is returned. -/
lemma interpAt_last (x c yc : ℝ) :
    ∀ (pre : List (ℝ × ℝ)), (∀ p ∈ pre, p.1 < x) → c ≤ x →
      interpAt (pre ++ [(c, yc)]) x = yc := by
  intro pre
  induction pre with
  | nil =>
    intro _ _
    simp [interpAt]
  | cons p0 tl ih =>
    intro hpre hcx
    obtain ⟨px, py⟩ := p0
    have hpx : px < x := by simpa using hpre (px, py) (by simp)
    cases tl with
    | nil =>
      simp only [List.nil_append, List.cons_append, interpAt]
      rw [if_neg (not_lt.mpr hpx.le)]
      by_cases hxc : x ≤ c
      · have hxeq : x = c := le_antisymm hxc hcx
        rw [if_pos hxc]
        have hne : c - px ≠ 0 := sub_ne_zero.mpr (by rw [← hxeq]; exact hpx.ne')
        rw [hxeq, mul_div_assoc, div_self hne, mul_one]
        ring
      · rw [if_neg hxc]
    | cons q tl' =>
      obtain ⟨qx, qy⟩ := q
      have hqx : qx < x := by simpa using hpre (qx, qy) (by simp)
      simp only [List.cons_append, interpAt]
      rw [if_neg (not_lt.mpr hpx.le), if_neg (not_le.mpr hqx)]
      exact ih (fun p hp => hpre p (List.mem_cons_of_mem _ hp)) hcx

/-- The month-start offsets are strictly increasing over the 12 months of
any year, for both February lengths. -/
lemma monthStartOffset_strictMono (y : ℕ) :
    ∀ j, j < 13 → ∀ i, i < j → monthStartOffset y i < monthStartOffset y j := by
  cases h : isLeap y <;> simp only [monthStartOffset, monthLengths, h] <;> decide

lemma anchorList_split (y : ℕ) (f : ℕ → ℝ) (m : ℕ) (hm : m + 1 < 12) :
    anchorList y f =
      ((List.range' 0 m).map (fun k => ((monthStartOffset y k : ℝ), f (k + 1)))) ++
        ((monthStartOffset y m : ℝ), f (m + 1)) ::
        ((monthStartOffset y (m + 1) : ℝ), f (m + 2)) ::
        ((List.range' (m + 2) (10 - m)).map
          (fun k => ((monthStartOffset y k : ℝ), f (k + 1)))) := by
  have hA : List.range' 0 m ++ List.range' m (12 - m) = List.range' 0 12 := by
    simpa [show (12 - m) + m = 12 by omega] using List.range'_append_1 0 m (12 - m)
  have hB : List.range' m 2 ++ List.range' (m + 2) (10 - m) = List.range' m (12 - m) := by
    simpa [show (10 - m) + 2 = 12 - m by omega] using List.range'_append_1 m 2 (10 - m)
  rw [anchorList, List.range_eq_range', ← hA, ← hB, range'_two]
  simp [List.map_append]

lemma anchorList_split_last (y : ℕ) (f : ℕ → ℝ) :
    anchorList y f =
      ((List.range' 0 11).map (fun k => ((monthStartOffset y k : ℝ), f (k + 1)))) ++
        [((monthStartOffset y 11 : ℝ), f 12)] := by
  have hA : List.range' 0 11 ++ List.range' 11 1 = List.range' 0 12 := by
    simpa using List.range'_append_1 0 11 1
  rw [anchorList, List.range_eq_range', ← hA]
  simp [List.map_append]

/-- C8: the renderer's normal overlay line is the linear interpolation of
the twelve monthly normals with anchors at the first day of each month:
between the starts of two consecutive months the drawn value is the linear
blend of their normals (so at a month's first day it equals that month's
normal exactly), and from December 1 on it stays at December's normal. -/
theorem normal_lines_interpolate_month_starts (year : ℕ) (f : ℕ → ℝ) (m d : ℕ) :
    (m + 1 < 12 → monthStartOffset year m ≤ d → d ≤ monthStartOffset year (m + 1) →
      extendedNormal year f d =
        f (m + 1) + (f (m + 2) - f (m + 1)) *
          ((d : ℝ) - (monthStartOffset year m : ℝ)) /
          ((monthStartOffset year (m + 1) : ℝ) - (monthStartOffset year m : ℝ))) ∧
    (monthStartOffset year 11 ≤ d → extendedNormal year f d = f 12) := by
  constructor
  · intro hm h1 h2
    rw [extendedNormal, anchorList_split year f m hm]
    apply interpAt_seg
    · intro p hp
      obtain ⟨k, hk, rfl⟩ := List.mem_map.mp hp
      have hkm : k < m := by
        have := mem_range'_lt k 0 m hk
        omega
      have hlt : monthStartOffset year k < monthStartOffset year m :=
        monthStartOffset_strictMono year m (by omega) k hkm
      have hkd : monthStartOffset year k < d := lt_of_lt_of_le hlt h1
      show (monthStartOffset year k : ℝ) < (d : ℝ)
      exact_mod_cast hkd
    · exact_mod_cast h1
    · exact_mod_cast h2
    · have hlt : monthStartOffset year m < monthStartOffset year (m + 1) :=
        monthStartOffset_strictMono year (m + 1) (by omega) m (by omega)
      exact_mod_cast hlt
  · intro h11
    rw [extendedNormal, anchorList_split_last year f]
    apply interpAt_last
    · intro p hp
      obtain ⟨k, hk, rfl⟩ := List.mem_map.mp hp
      have hkm : k < 11 := by
        have := mem_range'_lt k 0 11 hk
        omega
      have hlt : monthStartOffset year k < monthStartOffset year 11 :=
        monthStartOffset_strictMono year 11 (by omega) k hkm
      show (monthStartOffset year k : ℝ) < (d : ℝ)
      exact_mod_cast lt_of_lt_of_le hlt h11
    · exact_mod_cast h11

/-- Concrete family of monthly-normal values used to exercise the
interpolation theorem at a specific year and day. -/
noncomputable def fTest : ℕ → ℝ := fun k => (k : ℝ)

theorem normal_lines_interpolate_month_starts_witness :
    (extendedNormal 2023 fTest 16 =
      fTest (0 + 1) + (fTest (0 + 2) - fTest (0 + 1)) *
        ((16 : ℕ) - (monthStartOffset 2023 0 : ℝ)) /
        ((monthStartOffset 2023 (0 + 1) : ℝ) - (monthStartOffset 2023 0 : ℝ))) ∧
    extendedNormal 2023 fTest 350 = fTest 12 := by
  have h1 := normal_lines_interpolate_month_starts 2023 fTest 0 16
  have h2 := normal_lines_interpolate_month_starts 2023 fTest 0 350
  exact ⟨h1.1 (by decide) (by decide) (by decide), h2.2 (by decide)⟩

end TufteWeather
